import Mathlib

/-!
Shallow embedding of the document-qa-system repository:
`src/core/document_processor.py` (class `DocumentProcessor`) and
`config/settings.py` (class `Settings`).

Embedding conventions:
* Python `str` is embedded as `List Char` internally and wrapped in `String`
  at API boundaries.
* `pathlib.Path` operations (`exists`, `suffix`, `name`, `str(path)`) are pure
  functions over the raw path string, following CPython `pathlib`
  (PurePosixPath) semantics: splitting on `/`, dropping empty and `.`
  components.  The POSIX double-leading-slash special root is not modelled;
  no result below depends on such an input.
* The filesystem and the third-party langchain loaders are an explicit
  environment record `LoaderEnv`; exceptions become `Except LoadError`.
-/

/-- A value in a document metadata dictionary: loaders produce strings and
integers (page numbers). -/
inductive MVal where
  | str (s : String)
  | int (n : Int)
deriving DecidableEq, Repr

/-- A langchain `Document`: `page_content` is the text, `metadata` an
insertion-ordered string-keyed dictionary. -/
structure Document where
  page_content : List Char
  metadata : List (String × MVal)
deriving DecidableEq, Repr

/-- The four loader classes imported by `document_processor.py`. -/
inductive Loader where
  | pyPDFLoader
  | textLoader
  | docx2txtLoader
  | unstructuredMarkdownLoader
deriving DecidableEq, Repr

/-- The exceptions `load_document` / `process_directory` can raise:
`notFound` is `FileNotFoundError`, `unsupportedType` is `ValueError`,
`loaderFailure` re-raises whatever the loader raised. -/
inductive LoadError where
  | notFound (msg : String)
  | unsupportedType (msg : String)
  | loaderFailure (msg : String)
deriving DecidableEq, Repr

/-! ### pathlib embedding -/

/-- Split a character list at every `/` (the separators are dropped). -/
def splitSlash : List Char → List (List Char)
  | [] => [[]]
  | c :: rest =>
    if c = '/' then [] :: splitSlash rest
    else
      match splitSlash rest with
      | [] => [[c]]
      | h :: t => (c :: h) :: t

/-- The path components kept by `pathlib`: empty and `.` segments are
dropped (`Path("./a//b").parts = ("a", "b")`). -/
def pyPartsChars (p : List Char) : List (List Char) :=
  (splitSlash p).filter (fun c => ¬(c = [] ∨ c = ['.']))

/-- Whether the path is absolute (starts with `/`). -/
def pyIsAbsChars : List Char → Bool
  | '/' :: _ => true
  | _ => false

/-- Join path components with `/`. -/
def joinParts : List (List Char) → List Char
  | [] => []
  | [x] => x
  | x :: xs => x ++ '/' :: joinParts xs

/-- `str(Path(p))` for a POSIX path: the normalized rendering of the parsed
components (`str(Path("./data/x")) = "data/x"`, `str(Path("")) = "."`). -/
def pyStrChars (p : List Char) : List Char :=
  if pyIsAbsChars p then '/' :: joinParts (pyPartsChars p)
  else if pyPartsChars p = [] then ['.']
  else joinParts (pyPartsChars p)

def pyStr (p : String) : String := ⟨pyStrChars p.data⟩

/-- `Path(p).name`: the final component, `""` when there is none. -/
def pyNameChars (p : List Char) : List Char :=
  ((pyPartsChars p).getLast?).getD []

def pyName (p : String) : String := ⟨pyNameChars p.data⟩

/-- Index of the last `.` in a name, if any. -/
def lastDotIdx (name : List Char) : Option Nat :=
  match (name.reverse).findIdx? (fun c => c = '.') with
  | none => none
  | some j => some (name.length - 1 - j)

/-- `Path(p).suffix` on the name: `name[i:]` for `i` the last `.` index when
`0 < i < len(name) - 1`, else `""` (so `".bashrc"` and `"file."` have no
suffix, `"a.tar.gz"` has suffix `".gz"`). -/
def suffixOfName (name : List Char) : List Char :=
  match lastDotIdx name with
  | none => []
  | some i => if 0 < i ∧ i + 1 < name.length then name.drop i else []

def pySuffix (p : String) : String := ⟨suffixOfName (pyNameChars p.data)⟩

/-- Python `str.lower()` (ASCII-faithful). -/
def pyLower (s : String) : String := ⟨s.data.map Char.toLower⟩

/-! ### Metadata dictionary operations -/

/-- First-match association lookup (dictionary read). -/
def mdLookup : List (String × MVal) → String → Option MVal
  | [], _ => none
  | (k, v) :: m, key => if k = key then some v else mdLookup m key

/-- `dict.update` for a single key: replace the binding in place when the key
is present, append it otherwise. -/
def mdSet (m : List (String × MVal)) (key : String) (v : MVal) : List (String × MVal) :=
  if (mdLookup m key).isSome then
    m.map (fun kv => if kv.1 = key then (key, v) else kv)
  else
    m ++ [(key, v)]

/-! ### DocumentProcessor -/

/-- The fixed extension → loader table built in `DocumentProcessor.__init__`
(insertion order of the Python dict).  Note `.doc` is routed to the
Markdown-oriented `UnstructuredMarkdownLoader`, exactly as in the source. -/
def supportedExtensions : List (String × Loader) :=
  [(".pdf", .pyPDFLoader),
   (".txt", .textLoader),
   (".docx", .docx2txtLoader),
   (".doc", .unstructuredMarkdownLoader)]

/-- A single-quote character, for Python `repr` of strings. -/
def squo : String := ⟨[Char.ofNat 39]⟩

/-- Join with `", "`. -/
def joinCommaSp : List String → String
  | [] => ""
  | [x] => x
  | x :: xs => x ++ ", " ++ joinCommaSp xs

/-- Python `str(list_of_strings)`, e.g. `['.pdf', '.txt', '.docx', '.doc']`. -/
def pyListRepr (xs : List String) : String :=
  "[" ++ joinCommaSp (xs.map (fun s => squo ++ s ++ squo)) ++ "]"

/-- The filesystem and third-party loader environment.
`pathExists`, `isFile` and `children` (the `iterdir` listing, in iteration
order, as full path strings) are queried at normalized (`str(Path(...))`)
paths.  `loadRaw` — modelled from the spec: the langchain loader classes
(`PyPDFLoader`, `TextLoader`, `Docx2txtLoader`, `UnstructuredMarkdownLoader`)
are external libraries, not part of this repository; per the spec a loader
"converts a raw file into one or more document records" or fails, so it is an
arbitrary function from loader and path to `Except` records. -/
structure LoaderEnv where
  pathExists : String → Bool
  isFile : String → Bool
  children : String → List String
  loadRaw : Loader → String → Except String (List Document)

/-- `doc.metadata.update({"source": ..., "file_path": ..., "file_type": ...})`
performed on every loaded record (`document_processor.py` lines 52-57). -/
def stampDoc (file_path : String) (d : Document) : Document :=
  { d with
    metadata :=
      mdSet
        (mdSet
          (mdSet d.metadata "source" (.str (pyName file_path)))
          "file_path" (.str (pyStr file_path)))
        "file_type" (.str (pyLower (pySuffix file_path))) }

/-- The `try` block of `load_document`: run the chosen loader class on
`str(file_path)` and stamp every returned record's metadata; a loader
exception is re-raised (`raise` after logging). -/
def runLoader (env : LoaderEnv) (loader_class : Loader) (file_path : String) :
    Except LoadError (List Document) :=
  match env.loadRaw loader_class (pyStr file_path) with
  | .error e => .error (.loaderFailure e)
  | .ok documents => .ok (documents.map (stampDoc file_path))

/-- The `DocumentProcessor` instance state set in `__init__`:
`chunk_size` (default 1000) and `chunk_overlap` (default 200).
`supported_extensions` is the same fixed table in every instance and is the
top-level `supportedExtensions`. -/
structure DocumentProcessor where
  chunk_size : Nat := 1000
  chunk_overlap : Nat := 200
deriving DecidableEq, Repr

/-- `DocumentProcessor.load_document` (lines 34-62): `FileNotFoundError` when
the path does not exist; `ValueError` listing the supported types when the
lowercased suffix is not in the table; otherwise run the matching loader and
stamp the records. -/
def DocumentProcessor.load_document (_p : DocumentProcessor) (env : LoaderEnv)
    (file_path : String) : Except LoadError (List Document) :=
  if env.pathExists (pyStr file_path) = false then
    .error (.notFound ("Document not found: " ++ pyStr file_path))
  else
    match supportedExtensions.lookup (pyLower (pySuffix file_path)) with
    | none =>
        .error (.unsupportedType
          ("Unsupported file type: " ++ pyLower (pySuffix file_path) ++
           ", supported types are: " ++ pyListRepr (supportedExtensions.map Prod.fst)))
    | some loader_class => runLoader env loader_class file_path

/-- The `for file_path in directory.iterdir()` loop of `process_directory`
(lines 89-96): for each child that is a regular file whose lowercased suffix
is in the table, call `load_document`, extending `all_documents` on success
and skipping the file on any exception (`except Exception: continue`). -/
def processLoop (p : DocumentProcessor) (env : LoaderEnv) (all_documents : List Document) :
    List String → List Document
  | [] => all_documents
  | file_path :: rest =>
    if env.isFile file_path &&
        (supportedExtensions.lookup (pyLower (pySuffix file_path))).isSome then
      match p.load_document env file_path with
      | .ok documents => processLoop p env (all_documents ++ documents) rest
      | .error _ => processLoop p env all_documents rest
    else processLoop p env all_documents rest

/-- `DocumentProcessor.process_directory` (lines 81-99): `FileNotFoundError`
when the directory does not exist; otherwise run the iteration loop starting
from the empty accumulator and return its result. -/
def DocumentProcessor.process_directory (p : DocumentProcessor) (env : LoaderEnv)
    (directory_path : String) : Except LoadError (List Document) :=
  if env.pathExists (pyStr directory_path) = false then
    .error (.notFound ("Directory not found: " ++ directory_path))
  else
    .ok (processLoop p env [] (env.children (pyStr directory_path)))

/-! ### Text splitting

`__init__` builds a langchain `RecursiveCharacterTextSplitter` with
`chunk_size`, `chunk_overlap`, `length_function=len` and separators
`["\n\n", "\n", ". ", "! ", "? ", " ", ""]`.  The splitter itself is an
external library, not part of this repository, so its splitting of one text
is modelled from the spec. -/

/-- The chunk start offsets `0, step, 2*step, ...` where `step` is
`chunk_size - chunk_overlap`: a new chunk starts while the current one does
not yet reach the end of the text.  `fuel` (instantiated with the text
length) bounds the recursion. -/
def chunkStartsAux : Nat → Nat → Nat → Nat → Nat → List Nat
  | 0, _, _, _, s => [s]
  | Nat.succ fuel, step, cs, len, s =>
    if s + cs < len then s :: chunkStartsAux fuel step cs len (s + step)
    else [s]

/-- Modelled from the spec: langchain's `RecursiveCharacterTextSplitter` is
not part of this repository.  The spec describes it as splitting each text
into chunks "while respecting the size/overlap parameters": each chunk is "a
bounded-length substring of a document's content" of at most `chunk_size`
characters, consecutive chunks share up to `chunk_overlap` characters "to
preserve context across split boundaries", and the chunks cover the whole
content.  The separator priority list only moves the cut points; the model
takes the character-boundary case (the final `""` fallback of the priority
list): windows of `chunk_size` characters advancing by
`chunk_size - chunk_overlap`. -/
def splitText (cs ov : Nat) (text : List Char) : List (List Char) :=
  if text.isEmpty then []
  else
    (chunkStartsAux text.length (cs - ov) cs text.length 0).map
      (fun s => (text.drop s).take cs)

/-- The per-record chunking: each chunk keeps the parent record's metadata
(`langchain` copies the metadata onto every chunk). -/
def chunkRecord (cs ov : Nat) (d : Document) : List Document :=
  (splitText cs ov d.page_content).map
    (fun c => { page_content := c, metadata := d.metadata })

/-- `DocumentProcessor.split_documents` (lines 64-79): empty input returns
`[]` immediately (`if not documents: return []`); otherwise the configured
splitter is applied to every record, in input order.  The computed statistics
(total characters, average chunk size) are only logged, not returned. -/
def DocumentProcessor.split_documents (p : DocumentProcessor)
    (documents : List Document) : List Document :=
  if documents.isEmpty then []
  else documents.flatMap (chunkRecord p.chunk_size p.chunk_overlap)

/-- Recompose a chunk list produced with step `step`: all but the last chunk
contribute their first `step` characters (the remainder is repeated at the
start of the next chunk), the last chunk contributes itself whole. -/
def recombine (step : Nat) : List (List Char) → List Char
  | [] => []
  | [c] => c
  | c :: rest => c.take step ++ recombine step rest

/-! ### Settings (`config/settings.py`) -/

/-- The `Settings` model: field names, types and defaults as declared in
`config/settings.py` (the float field `temperature`, default 0.1, carries no
claim and is embedded as its literal).  Loading from the environment or a
`.env` file replaces defaults before validation; the claims are about the
validator only. -/
structure Settings where
  google_api_key : Option String := none
  huggingfacehub_api_token : Option String := none
  app_env : String := "development"
  log_level : String := "INFO"
  max_file_size_mb : Nat := 50
  chunk_size : Nat := 1000
  chunk_overlap : Nat := 200
  vector_store_path : String := "./data/vector_store"
  upload_directory : String := "./data/uploads"
  embedding_model : String := "sentence-transformers/all-MiniLM-L12-v2"
  chat_model : String := "gemini-flash-latest"

/-- `max_file_size_bytes` property: MB × 1024 × 1024. -/
def Settings.max_file_size_bytes (s : Settings) : Nat :=
  s.max_file_size_mb * 1024 * 1024

/-- The normalized string of every ancestor of `p` (including `p` itself):
what `Path(p).mkdir(parents=True, exist_ok=True)` guarantees to exist. -/
def ancestorPaths (p : String) : List String :=
  (List.range (pyPartsChars p.data).length).map
    (fun i =>
      if pyIsAbsChars p.data then
        ⟨'/' :: joinParts ((pyPartsChars p.data).take (i + 1))⟩
      else
        (⟨joinParts ((pyPartsChars p.data).take (i + 1))⟩ : String))

/-- The filesystem after `mkdir(parents=True, exist_ok=True)`: a directory
exists afterwards iff it existed before or is an ancestor of the created
path.  The existing tree is untouched (`exist_ok=True` never fails). -/
def mkdirParents (fs : String → Bool) (p : String) : String → Bool :=
  fun d => fs d || (ancestorPaths p).contains d

/-- `Settings.ensure_directory_exists` (`settings.py` lines 35-40), the
`field_validator` for `vector_store_path` and `upload_directory`:
`path = Path(v); path.mkdir(parents=True, exist_ok=True); return str(path)`.
The filesystem is passed and returned explicitly; the first component is the
value stored in the validated field. -/
def Settings.ensure_directory_exists (fs : String → Bool) (v : String) :
    String × (String → Bool) :=
  (pyStr v, mkdirParents fs v)


/-! ### Concrete data for closed-form evaluations -/

/-- An environment in which no path exists. -/
def envNone : LoaderEnv :=
  { pathExists := fun _ => false
    isFile := fun _ => false
    children := fun _ => []
    loadRaw := fun _ _ => .ok [] }

/-- An environment in which every path exists, every path is a regular file,
and every loader returns no records. -/
def envAll : LoaderEnv :=
  { pathExists := fun _ => true
    isFile := fun _ => true
    children := fun _ => []
    loadRaw := fun _ _ => .ok [] }

/-- A raw record as the plain-text loader would produce it for `d/a.txt`. -/
def rawTxtDoc : Document :=
  { page_content := "hi there".data, metadata := [("encoding", MVal.str "utf-8")] }

/-- An environment with one directory `d` containing a loadable text file, a
corrupt PDF (its loader raises) and a CSV (unsupported extension). -/
def envDir : LoaderEnv :=
  { pathExists := fun s => s == "d" || s == "d/a.txt" || s == "d/bad.pdf" || s == "d/skip.csv"
    isFile := fun s => s != "d"
    children := fun s => if s == "d" then ["d/a.txt", "d/bad.pdf", "d/skip.csv"] else []
    loadRaw := fun loader_class s =>
      if loader_class = Loader.textLoader ∧ s = "d/a.txt" then .ok [rawTxtDoc]
      else .error "parse failure" }

/-- A record whose content is 1001 copies of `a`, long enough for two chunks
at the default chunk size. -/
def docC1 : Document :=
  { page_content := List.replicate 1001 'a', metadata := [("page", MVal.int 0)] }

/-- The first chunk `split_documents` produces from `docC1`. -/
def chunkC1 : Document :=
  { page_content := List.replicate 1000 'a', metadata := [("page", MVal.int 0)] }

/-- Two tiny records for the order-preservation evaluation. -/
def docA : Document := { page_content := "alpha".data, metadata := [] }

def docB : Document := { page_content := "beta".data, metadata := [] }

/-- A filesystem on which `data/vector_store` (and its parent) already
exist. -/
def fsData : String → Bool := fun d => d == "data" || d == "data/vector_store"

/-! ### Helper lemmas: metadata dictionary -/

theorem mdLookup_map_set (m : List (String × MVal)) (key : String) (v : MVal)
    (h : (mdLookup m key).isSome) :
    mdLookup (m.map fun kv => if kv.1 = key then (key, v) else kv) key = some v := by
  induction m with
  | nil => simp [mdLookup] at h
  | cons kv m ih =>
    obtain ⟨k, w⟩ := kv
    rw [mdLookup] at h
    simp only [List.map_cons]
    show mdLookup ((if k = key then (key, v) else (k, w)) ::
      List.map (fun kv => if kv.1 = key then (key, v) else kv) m) key = some v
    by_cases hk : k = key
    · rw [if_pos hk, mdLookup, if_pos rfl]
    · rw [if_neg hk] at h
      rw [if_neg hk, mdLookup, if_neg hk]
      exact ih h

theorem mdLookup_map_set_ne (m : List (String × MVal)) (key key' : String) (v : MVal)
    (hne : key' ≠ key) :
    mdLookup (m.map fun kv => if kv.1 = key then (key, v) else kv) key' = mdLookup m key' := by
  induction m with
  | nil => simp [mdLookup]
  | cons kv m ih =>
    obtain ⟨k, w⟩ := kv
    simp only [List.map_cons]
    show mdLookup ((if k = key then (key, v) else (k, w)) ::
        List.map (fun kv => if kv.1 = key then (key, v) else kv) m) key' =
      mdLookup ((k, w) :: m) key'
    by_cases hk : k = key
    · rw [if_pos hk, mdLookup, mdLookup, if_neg hne.symm,
        if_neg (fun hq => hne.symm (hk.symm.trans hq))]
      exact ih
    · rw [if_neg hk, mdLookup, mdLookup]
      split
      · rfl
      · exact ih

theorem mdLookup_append_single (m : List (String × MVal)) (key : String) (v : MVal)
    (h : mdLookup m key = none) :
    mdLookup (m ++ [(key, v)]) key = some v := by
  induction m with
  | nil => simp [mdLookup]
  | cons kv m ih =>
    rw [mdLookup] at h
    rw [List.cons_append, mdLookup]
    split at h
    · exact absurd h (by simp)
    · rw [if_neg ‹¬kv.1 = key›]
      exact ih h

theorem mdLookup_append_single_ne (m : List (String × MVal)) (key key' : String) (v : MVal)
    (hne : key' ≠ key) :
    mdLookup (m ++ [(key, v)]) key' = mdLookup m key' := by
  induction m with
  | nil => simp [mdLookup, hne.symm]
  | cons kv m ih =>
    rw [List.cons_append, mdLookup, mdLookup]
    split
    · rfl
    · exact ih

theorem mdLookup_mdSet_self (m : List (String × MVal)) (key : String) (v : MVal) :
    mdLookup (mdSet m key v) key = some v := by
  unfold mdSet
  split
  · exact mdLookup_map_set m key v ‹_›
  · exact mdLookup_append_single m key v (by
      rcases h : mdLookup m key with _ | w
      · rfl
      · exact absurd (by rw [h]; rfl) ‹¬(mdLookup m key).isSome = true›)

theorem mdLookup_mdSet_ne (m : List (String × MVal)) (key key' : String) (v : MVal)
    (hne : key' ≠ key) :
    mdLookup (mdSet m key v) key' = mdLookup m key' := by
  unfold mdSet
  split
  · exact mdLookup_map_set_ne m key key' v hne
  · exact mdLookup_append_single_ne m key key' v hne

theorem stampDoc_source (fp : String) (d : Document) :
    mdLookup (stampDoc fp d).metadata "source" = some (.str (pyName fp)) := by
  unfold stampDoc
  rw [mdLookup_mdSet_ne _ _ _ _ (by decide), mdLookup_mdSet_ne _ _ _ _ (by decide),
    mdLookup_mdSet_self]

theorem stampDoc_file_path (fp : String) (d : Document) :
    mdLookup (stampDoc fp d).metadata "file_path" = some (.str (pyStr fp)) := by
  unfold stampDoc
  rw [mdLookup_mdSet_ne _ _ _ _ (by decide), mdLookup_mdSet_self]

theorem stampDoc_file_type (fp : String) (d : Document) :
    mdLookup (stampDoc fp d).metadata "file_type" = some (.str (pyLower (pySuffix fp))) := by
  unfold stampDoc
  rw [mdLookup_mdSet_self]

theorem stampDoc_other (fp : String) (d : Document) (k : String)
    (h1 : k ≠ "source") (h2 : k ≠ "file_path") (h3 : k ≠ "file_type") :
    mdLookup (stampDoc fp d).metadata k = mdLookup d.metadata k := by
  unfold stampDoc
  rw [mdLookup_mdSet_ne _ _ _ _ h3, mdLookup_mdSet_ne _ _ _ _ h2,
    mdLookup_mdSet_ne _ _ _ _ h1]

/-! ### Helper lemmas: chunking -/

theorem chunkStartsAux_head (fuel step cs len s : Nat) :
    (chunkStartsAux fuel step cs len s).head? = some s := by
  cases fuel with
  | zero => rfl
  | succ fuel =>
    rw [chunkStartsAux]
    split <;> rfl

theorem chunkStartsAux_ne_nil (fuel step cs len s : Nat) :
    chunkStartsAux fuel step cs len s ≠ [] := by
  cases fuel with
  | zero => simp [chunkStartsAux]
  | succ fuel =>
    rw [chunkStartsAux]
    split <;> simp

theorem chunkStartsAux_chain' (step cs len : Nat) :
    ∀ fuel s, List.Chain' (fun a b => b = a + step) (chunkStartsAux fuel step cs len s) := by
  intro fuel
  induction fuel with
  | zero => intro s; simp [chunkStartsAux]
  | succ fuel ih =>
    intro s
    rw [chunkStartsAux]
    split
    · rw [List.chain'_cons']
      refine ⟨?_, ih (s + step)⟩
      intro y hy
      rw [chunkStartsAux_head] at hy
      simp only [Option.mem_def, Option.some_inj] at hy
      omega
    · simp

theorem recombine_cons (step : Nat) (a : List Char) (l : List (List Char)) (h : l ≠ []) :
    recombine step (a :: l) = a.take step ++ recombine step l := by
  cases l with
  | nil => exact absurd rfl h
  | cons b t => rfl

theorem recombine_chunkStartsAux (step cs : Nat) (text : List Char)
    (h1 : 1 ≤ step) (h2 : step ≤ cs) :
    ∀ fuel s, text.length ≤ fuel + s →
      recombine step ((chunkStartsAux fuel step cs text.length s).map
        (fun t => (text.drop t).take cs)) = text.drop s := by
  intro fuel
  induction fuel with
  | zero =>
    intro s hs
    show (text.drop s).take cs = text.drop s
    rw [List.drop_eq_nil_of_le (by omega)]
    exact List.take_nil
  | succ fuel ih =>
    intro s hs
    rw [chunkStartsAux]
    split
    · rename_i hlt
      rw [List.map_cons,
        recombine_cons _ _ _ (by simp [chunkStartsAux_ne_nil]),
        ih (s + step) (by omega),
        List.take_take, Nat.min_eq_left h2,
        ← List.drop_drop, List.take_append_drop]
    · rename_i hge
      show (text.drop s).take cs = text.drop s
      exact List.take_of_length_le (by rw [List.length_drop]; omega)

theorem splitText_length_le (cs ov : Nat) (text : List Char) :
    ∀ c ∈ splitText cs ov text, c.length ≤ cs := by
  intro c hc
  unfold splitText at hc
  split at hc
  · simp at hc
  · obtain ⟨s, _, rfl⟩ := List.mem_map.mp hc
    exact List.length_take_le cs _

theorem splitText_chain' (cs ov : Nat) (hov : ov ≤ cs) (text : List Char) :
    List.Chain'
      (fun a b => a.drop (cs - ov) = b.take ov ∧ (a.drop (cs - ov)).length ≤ ov)
      (splitText cs ov text) := by
  unfold splitText
  split
  · simp
  · rw [List.chain'_map]
    refine List.Chain'.imp ?_
      (chunkStartsAux_chain' (cs - ov) cs text.length text.length 0)
    intro a b hab
    subst hab
    constructor
    · rw [List.drop_take, List.drop_drop, Nat.sub_sub_self hov,
        List.take_take, Nat.min_eq_left hov]
    · rw [List.drop_take, Nat.sub_sub_self hov]
      exact List.length_take_le ov _

theorem splitText_recombine (cs ov : Nat) (hov : ov < cs) (text : List Char) :
    recombine (cs - ov) (splitText cs ov text) = text := by
  unfold splitText
  split
  · rename_i he
    rw [List.isEmpty_iff.mp he]
    rfl
  · have h := recombine_chunkStartsAux (cs - ov) cs text (by omega) (by omega)
      text.length 0 (by omega)
    simpa using h

/-! ### Helper lemmas: directory processing and splitting shape -/

theorem processLoop_eq (p : DocumentProcessor) (env : LoaderEnv) :
    ∀ (l : List String) (acc : List Document),
      processLoop p env acc l =
        acc ++ (l.filter (fun c => env.isFile c &&
            (supportedExtensions.lookup (pyLower (pySuffix c))).isSome)).flatMap
          (fun c => match p.load_document env c with
            | .ok documents => documents
            | .error _ => []) := by
  intro l
  induction l with
  | nil => intro acc; simp [processLoop]
  | cons x rest ih =>
    intro acc
    rw [processLoop]
    split
    · rename_i hx
      simp only [List.filter_cons, hx, if_true, List.flatMap_cons]
      cases hld : p.load_document env x with
      | ok ds => simp [ih]
      | error e => simp [ih]
    · rename_i hx
      simp only [List.filter_cons]
      rw [if_neg hx, ih]

theorem split_documents_eq_flatMap (p : DocumentProcessor) (documents : List Document) :
    p.split_documents documents
      = documents.flatMap (chunkRecord p.chunk_size p.chunk_overlap) := by
  unfold DocumentProcessor.split_documents
  split
  · rename_i h
    rw [List.isEmpty_iff.mp h]
    rfl
  · rfl

/-! ### Claim theorems -/

/-- Claim C7: `split_documents` applied to an empty sequence of document
records returns an empty sequence; in the embedding it is a total function,
so no error is raised. -/
theorem claim_C7_split_documents_empty (p : DocumentProcessor) :
    p.split_documents [] = [] := rfl

/-- Claim C2: `load_document` raises `FileNotFoundError` whenever the given
path does not exist, and `process_directory` raises `FileNotFoundError`
whenever the given directory path does not exist; in both cases no records
are returned (an `.ok` result is impossible). -/
theorem claim_C2_not_found (p : DocumentProcessor) (env : LoaderEnv)
    (file_path directory_path : String)
    (hf : env.pathExists (pyStr file_path) = false)
    (hd : env.pathExists (pyStr directory_path) = false) :
    p.load_document env file_path
        = .error (.notFound ("Document not found: " ++ pyStr file_path)) ∧
    p.process_directory env directory_path
        = .error (.notFound ("Directory not found: " ++ directory_path)) ∧
    (∀ docs, p.load_document env file_path ≠ .ok docs) ∧
    (∀ docs, p.process_directory env directory_path ≠ .ok docs) := by
  have h1 : p.load_document env file_path
      = .error (.notFound ("Document not found: " ++ pyStr file_path)) := by
    unfold DocumentProcessor.load_document
    rw [hf, if_pos rfl]
  have h2 : p.process_directory env directory_path
      = .error (.notFound ("Directory not found: " ++ directory_path)) := by
    unfold DocumentProcessor.process_directory
    rw [hd, if_pos rfl]
  refine ⟨h1, h2, ?_, ?_⟩
  · intro docs hdocs
    rw [h1] at hdocs
    exact Except.noConfusion hdocs
  · intro docs hdocs
    rw [h2] at hdocs
    exact Except.noConfusion hdocs

/-- Evaluation of `claim_C2_not_found` on a concrete environment with no
existing paths. -/
theorem claim_C2_witness :
    envNone.pathExists (pyStr "missing.txt") = false ∧
    envNone.pathExists (pyStr "missing_dir") = false ∧
    (DocumentProcessor.mk 1000 200).load_document envNone "missing.txt"
      = .error (.notFound ("Document not found: " ++ pyStr "missing.txt")) ∧
    (DocumentProcessor.mk 1000 200).process_directory envNone "missing_dir"
      = .error (.notFound ("Directory not found: " ++ "missing_dir")) := by
  have h := claim_C2_not_found (DocumentProcessor.mk 1000 200) envNone
    "missing.txt" "missing_dir" rfl rfl
  exact ⟨rfl, rfl, h.1, h.2.1⟩

/-- Claim C10: in `load_document` the existence check precedes the extension
check: a nonexistent path always yields `FileNotFoundError` (even when the
extension is also unsupported), and the `ValueError` (unsupported type) is
only ever reached for paths that exist. -/
theorem claim_C10_existence_before_extension (p : DocumentProcessor)
    (env : LoaderEnv) (file_path : String) :
    (env.pathExists (pyStr file_path) = false →
      p.load_document env file_path
        = .error (.notFound ("Document not found: " ++ pyStr file_path))) ∧
    (∀ msg, p.load_document env file_path = .error (.unsupportedType msg) →
      env.pathExists (pyStr file_path) = true) := by
  have h1 : env.pathExists (pyStr file_path) = false →
      p.load_document env file_path
        = .error (.notFound ("Document not found: " ++ pyStr file_path)) := by
    intro h
    unfold DocumentProcessor.load_document
    rw [h, if_pos rfl]
  refine ⟨h1, ?_⟩
  intro msg hmsg
  cases hb : env.pathExists (pyStr file_path) with
  | false =>
    rw [h1 hb] at hmsg
    injection hmsg with hmsg'
    exact LoadError.noConfusion hmsg'
  | true => rfl

/-- Evaluation of `claim_C10_existence_before_extension` at a path that both
does not exist and has an unsupported extension: the result is still the
not-found error. -/
theorem claim_C10_witness :
    envNone.pathExists (pyStr "ghost.csv") = false ∧
    supportedExtensions.lookup (pyLower (pySuffix "ghost.csv")) = none ∧
    (DocumentProcessor.mk 1000 200).load_document envNone "ghost.csv"
      = .error (.notFound ("Document not found: " ++ pyStr "ghost.csv")) :=
  ⟨rfl, rfl,
    (claim_C10_existence_before_extension (DocumentProcessor.mk 1000 200)
      envNone "ghost.csv").1 rfl⟩

/-- Claim C3: for every path that exists but whose lowercased extension is
not in the supported table, `load_document` fails with the `ValueError`
whose message enumerates exactly the supported extensions
`.pdf`, `.txt`, `.docx`, `.doc` (the message embeds the Python `str` of the
table's key list, and the table's keys are exactly those four). -/
theorem claim_C3_unsupported_type (p : DocumentProcessor) (env : LoaderEnv)
    (file_path : String)
    (hex : env.pathExists (pyStr file_path) = true)
    (hun : supportedExtensions.lookup (pyLower (pySuffix file_path)) = none) :
    p.load_document env file_path = .error (.unsupportedType
      ("Unsupported file type: " ++ pyLower (pySuffix file_path) ++
       ", supported types are: " ++ pyListRepr [".pdf", ".txt", ".docx", ".doc"])) ∧
    supportedExtensions.map Prod.fst = [".pdf", ".txt", ".docx", ".doc"] := by
  constructor
  · unfold DocumentProcessor.load_document
    rw [hex, if_neg (by simp), hun]
    rfl
  · rfl

/-- Evaluation of `claim_C3_unsupported_type` at an existing `.csv` path. -/
theorem claim_C3_witness :
    envAll.pathExists (pyStr "d/data.csv") = true ∧
    supportedExtensions.lookup (pyLower (pySuffix "d/data.csv")) = none ∧
    (DocumentProcessor.mk 1000 200).load_document envAll "d/data.csv"
      = .error (.unsupportedType
        ("Unsupported file type: " ++ pyLower (pySuffix "d/data.csv") ++
         ", supported types are: " ++ pyListRepr [".pdf", ".txt", ".docx", ".doc"])) :=
  ⟨rfl, rfl,
    (claim_C3_unsupported_type (DocumentProcessor.mk 1000 200) envAll
      "d/data.csv" rfl rfl).1⟩

/-- Claim C4: `load_document` selects the loader by the file's lowercased
extension from the fixed four-entry table: `.pdf` to the PDF loader, `.txt`
to the plain-text loader, `.docx` to the DOCX loader, and `.doc` to the
Markdown-oriented loader (the pre-existing `.doc` quirk is preserved). -/
theorem claim_C4_loader_selection (p : DocumentProcessor) (env : LoaderEnv)
    (file_path : String)
    (hex : env.pathExists (pyStr file_path) = true) :
    (pyLower (pySuffix file_path) = ".pdf" →
      p.load_document env file_path = runLoader env .pyPDFLoader file_path) ∧
    (pyLower (pySuffix file_path) = ".txt" →
      p.load_document env file_path = runLoader env .textLoader file_path) ∧
    (pyLower (pySuffix file_path) = ".docx" →
      p.load_document env file_path = runLoader env .docx2txtLoader file_path) ∧
    (pyLower (pySuffix file_path) = ".doc" →
      p.load_document env file_path
        = runLoader env .unstructuredMarkdownLoader file_path) ∧
    supportedExtensions = [(".pdf", .pyPDFLoader), (".txt", .textLoader),
      (".docx", .docx2txtLoader), (".doc", .unstructuredMarkdownLoader)] := by
  refine ⟨?_, ?_, ?_, ?_, rfl⟩ <;>
    · intro h
      unfold DocumentProcessor.load_document
      rw [hex, if_neg (by simp), h]
      rfl

/-- Evaluation of `claim_C4_loader_selection`: an existing `.doc` path (with
an uppercase spelling, exercising the lowercasing) is routed to the
Markdown-oriented loader. -/
theorem claim_C4_witness :
    envAll.pathExists (pyStr "notes.DOC") = true ∧
    pyLower (pySuffix "notes.DOC") = ".doc" ∧
    (DocumentProcessor.mk 1000 200).load_document envAll "notes.DOC"
      = runLoader envAll .unstructuredMarkdownLoader "notes.DOC" :=
  ⟨rfl, rfl,
    (claim_C4_loader_selection (DocumentProcessor.mk 1000 200) envAll
      "notes.DOC" rfl).2.2.2.1 rfl⟩

/-- Claim C5: on every successful `load_document` call, each returned record
carries metadata `source` (the file's name), `file_path` (the path string)
and `file_type` (the lowercased extension); the returned records are exactly
the loader's records with those three keys stamped, so metadata keys added
by the loader itself are left in place. -/
theorem claim_C5_metadata_stamping (p : DocumentProcessor) (env : LoaderEnv)
    (file_path : String) (docs : List Document)
    (hok : p.load_document env file_path = .ok docs) :
    (∀ d ∈ docs,
      mdLookup d.metadata "source" = some (.str (pyName file_path)) ∧
      mdLookup d.metadata "file_path" = some (.str (pyStr file_path)) ∧
      mdLookup d.metadata "file_type" = some (.str (pyLower (pySuffix file_path)))) ∧
    (∃ loader_class raws,
      supportedExtensions.lookup (pyLower (pySuffix file_path)) = some loader_class ∧
      env.loadRaw loader_class (pyStr file_path) = .ok raws ∧
      docs = raws.map (stampDoc file_path) ∧
      docs.length = raws.length) ∧
    (∀ (d : Document) (k : String),
      k ≠ "source" → k ≠ "file_path" → k ≠ "file_type" →
      mdLookup (stampDoc file_path d).metadata k = mdLookup d.metadata k) := by
  unfold DocumentProcessor.load_document at hok
  split at hok
  · exact Except.noConfusion hok
  · split at hok
    · exact Except.noConfusion hok
    · rename_i loader_class heq
      unfold runLoader at hok
      split at hok
      · exact Except.noConfusion hok
      · rename_i raws heq2
        injection hok with hdocs
        subst hdocs
        refine ⟨?_, ⟨loader_class, raws, heq, heq2, rfl, List.length_map _ _⟩, ?_⟩
        · intro d hd
          obtain ⟨r, _, rfl⟩ := List.mem_map.mp hd
          exact ⟨stampDoc_source _ _, stampDoc_file_path _ _, stampDoc_file_type _ _⟩
        · intro d k h1 h2 h3
          exact stampDoc_other _ _ _ h1 h2 h3

/-- Evaluation of `claim_C5_metadata_stamping` on a text file whose loader
record already carries an `encoding` key: the three keys are stamped and the
loader's own key survives. -/
theorem claim_C5_witness :
    (DocumentProcessor.mk 1000 200).load_document envDir "d/a.txt"
      = .ok [stampDoc "d/a.txt" rawTxtDoc] ∧
    mdLookup (stampDoc "d/a.txt" rawTxtDoc).metadata "source" = some (.str "a.txt") ∧
    mdLookup (stampDoc "d/a.txt" rawTxtDoc).metadata "file_path" = some (.str "d/a.txt") ∧
    mdLookup (stampDoc "d/a.txt" rawTxtDoc).metadata "file_type" = some (.str ".txt") ∧
    mdLookup (stampDoc "d/a.txt" rawTxtDoc).metadata "encoding" = some (.str "utf-8") := by
  have hok : (DocumentProcessor.mk 1000 200).load_document envDir "d/a.txt"
      = .ok [stampDoc "d/a.txt" rawTxtDoc] := rfl
  have h := claim_C5_metadata_stamping (DocumentProcessor.mk 1000 200) envDir
    "d/a.txt" [stampDoc "d/a.txt" rawTxtDoc] hok
  have hd := h.1 (stampDoc "d/a.txt" rawTxtDoc) (List.mem_singleton.mpr rfl)
  have henc := h.2.2 rawTxtDoc "encoding" (by decide) (by decide) (by decide)
  exact ⟨hok, hd.1, hd.2.1, hd.2.2, henc.trans rfl⟩

/-- Claim C6: for every existing directory, `process_directory` returns
`.ok` of the concatenation, in directory-iteration order, of the records of
exactly those children that are regular files with a supported extension and
whose `load_document` call succeeds; a child whose load fails contributes
nothing, and the call itself never fails because of an individual file. -/
theorem claim_C6_partial_failure_tolerance (p : DocumentProcessor)
    (env : LoaderEnv) (directory_path : String)
    (hex : env.pathExists (pyStr directory_path) = true) :
    p.process_directory env directory_path = .ok
      (((env.children (pyStr directory_path)).filter (fun c => env.isFile c &&
          (supportedExtensions.lookup (pyLower (pySuffix c))).isSome)).flatMap
        (fun c => match p.load_document env c with
          | .ok documents => documents
          | .error _ => [])) := by
  unfold DocumentProcessor.process_directory
  rw [hex, if_neg (by simp), processLoop_eq, List.nil_append]

/-- Evaluation of `claim_C6_partial_failure_tolerance` on a directory with a
loadable text file, a PDF whose loader raises, and an unsupported CSV: the
call succeeds and returns only the text file's record. -/
theorem claim_C6_witness :
    envDir.pathExists (pyStr "d") = true ∧
    (DocumentProcessor.mk 1000 200).load_document envDir "d/bad.pdf"
      = .error (.loaderFailure "parse failure") ∧
    (DocumentProcessor.mk 1000 200).process_directory envDir "d"
      = .ok [stampDoc "d/a.txt" rawTxtDoc] := by
  refine ⟨rfl, rfl, ?_⟩
  rw [claim_C6_partial_failure_tolerance (DocumentProcessor.mk 1000 200) envDir "d" rfl]
  rfl

/-- Claim C8: `split_documents` is deterministic (two runs on equal inputs
yield equal chunk sequences) and order-preserving: the output is the
concatenation, in input order, of each record's chunk list, so splitting
distributes over list append. -/
theorem claim_C8_deterministic_order_preserving (p : DocumentProcessor)
    (ds₁ ds₂ xs ys : List Document) (hdet : ds₁ = ds₂) :
    p.split_documents ds₁ = p.split_documents ds₂ ∧
    p.split_documents (xs ++ ys) = p.split_documents xs ++ p.split_documents ys ∧
    p.split_documents ds₁ = ds₁.flatMap (chunkRecord p.chunk_size p.chunk_overlap) := by
  refine ⟨by rw [hdet], ?_, split_documents_eq_flatMap p ds₁⟩
  rw [split_documents_eq_flatMap, split_documents_eq_flatMap,
    split_documents_eq_flatMap, List.flatMap_append]

/-- Evaluation of `claim_C8_deterministic_order_preserving` on two concrete
records. -/
theorem claim_C8_witness :
    (DocumentProcessor.mk 1000 200).split_documents [docA]
      = (DocumentProcessor.mk 1000 200).split_documents [docA] ∧
    (DocumentProcessor.mk 1000 200).split_documents ([docA] ++ [docB])
      = (DocumentProcessor.mk 1000 200).split_documents [docA]
        ++ (DocumentProcessor.mk 1000 200).split_documents [docB] := by
  have h := claim_C8_deterministic_order_preserving (DocumentProcessor.mk 1000 200)
    [docA] [docA] [docA] [docB] rfl
  exact ⟨h.1, h.2.1⟩

/-- Claim C1: for every document record, `split_documents` at
chunk_size 1000 / chunk_overlap 200 produces chunks of at most 1000
characters each; consecutive chunks share up to 200 characters of overlap
(the tail of each chunk past position 800, of length at most 200, is exactly
the head of the next chunk); every chunk inherits the parent record's
metadata; and recombining the chunks (the first 800 characters of each chunk
followed by the last chunk whole) restores the original content. -/
theorem claim_C1_split_documents_chunks (d : Document) :
    (∀ c ∈ (DocumentProcessor.mk 1000 200).split_documents [d],
      c.page_content.length ≤ 1000) ∧
    List.Chain' (fun a b => a.page_content.drop 800 = b.page_content.take 200 ∧
        (a.page_content.drop 800).length ≤ 200)
      ((DocumentProcessor.mk 1000 200).split_documents [d]) ∧
    (∀ c ∈ (DocumentProcessor.mk 1000 200).split_documents [d],
      c.metadata = d.metadata) ∧
    recombine 800 (((DocumentProcessor.mk 1000 200).split_documents [d]).map
      Document.page_content) = d.page_content := by
  have hsd : (DocumentProcessor.mk 1000 200).split_documents [d]
      = chunkRecord 1000 200 d := by
    rw [split_documents_eq_flatMap]
    simp
  refine ⟨?_, ?_, ?_, ?_⟩
  · intro c hc
    rw [hsd] at hc
    unfold chunkRecord at hc
    obtain ⟨t, ht, rfl⟩ := List.mem_map.mp hc
    exact splitText_length_le 1000 200 d.page_content t ht
  · rw [hsd]
    unfold chunkRecord
    rw [List.chain'_map]
    refine List.Chain'.imp ?_ (splitText_chain' 1000 200 (by omega) d.page_content)
    intro a b hab
    exact ⟨by simpa using hab.1, by simpa using hab.2⟩
  · intro c hc
    rw [hsd] at hc
    unfold chunkRecord at hc
    obtain ⟨t, ht, rfl⟩ := List.mem_map.mp hc
    rfl
  · rw [hsd]
    unfold chunkRecord
    rw [List.map_map]
    have hcomp : (Document.page_content ∘ fun c =>
        ({ page_content := c, metadata := d.metadata } : Document)) = id := rfl
    rw [hcomp, List.map_id]
    simpa using splitText_recombine 1000 200 (by omega) d.page_content

set_option maxRecDepth 8000 in
/-- Evaluation of `claim_C1_split_documents_chunks` on a 1001-character
record: the first chunk has exactly 1000 characters and carries the parent
metadata. -/
theorem claim_C1_witness :
    chunkC1 ∈ (DocumentProcessor.mk 1000 200).split_documents [docC1] ∧
    chunkC1.page_content.length ≤ 1000 ∧
    chunkC1.metadata = docC1.metadata := by
  have h := claim_C1_split_documents_chunks docC1
  have hmem : chunkC1 ∈ (DocumentProcessor.mk 1000 200).split_documents [docC1] := by
    decide
  exact ⟨hmem, h.1 chunkC1 hmem, h.2.2.1 chunkC1 hmem⟩

/-- Claim C9 as stated is false: the validator returns `str(Path(v))`, the
normalized rendering of the path, not the input string.  On the field's own
default value `./data/vector_store` — with the directory already existing on
the filesystem — it returns `data/vector_store`, which differs from the
input. -/
theorem claim_C9_counterexample :
    fsData "data/vector_store" = true ∧
    (Settings.ensure_directory_exists fsData "./data/vector_store").1
      = "data/vector_store" ∧
    (Settings.ensure_directory_exists fsData "./data/vector_store").1
      ≠ "./data/vector_store" := by
  refine ⟨rfl, rfl, ?_⟩
  decide

/-- Claim C9 (amended): for each of the two Settings path fields, validation
creates the directory tree if missing (afterwards the configured directory
and every ancestor exist, and previously existing directories remain) and
returns `str(Path(v))` — the input path in normalized form, which equals the
input whenever the input is already normalized. -/
theorem claim_C9_amended_validator (fs : String → Bool) (v : String) :
    (Settings.ensure_directory_exists fs v).1 = pyStr v ∧
    (∀ a ∈ ancestorPaths v, (Settings.ensure_directory_exists fs v).2 a = true) ∧
    (∀ d, fs d = true → (Settings.ensure_directory_exists fs v).2 d = true) ∧
    (pyPartsChars v.data ≠ [] →
      (Settings.ensure_directory_exists fs v).2 (pyStr v) = true) := by
  refine ⟨rfl, ?_, ?_, ?_⟩
  · intro a ha
    show (fs a || (ancestorPaths v).contains a) = true
    rw [Bool.or_eq_true]
    exact Or.inr (List.elem_iff.mpr ha)
  · intro d hd
    show (fs d || (ancestorPaths v).contains d) = true
    rw [Bool.or_eq_true]
    exact Or.inl hd
  · intro hne
    have hlen : 0 < (pyPartsChars v.data).length := List.length_pos.mpr hne
    have hmem : pyStr v ∈ ancestorPaths v := by
      unfold ancestorPaths
      apply List.mem_map.mpr
      refine ⟨(pyPartsChars v.data).length - 1, List.mem_range.mpr (by omega), ?_⟩
      simp only [Nat.sub_add_cancel hlen, List.take_of_length_le (le_refl _)]
      unfold pyStr pyStrChars
      cases habs : pyIsAbsChars v.data with
      | true => simp [habs]
      | false => simp [habs, hne]
    show (fs (pyStr v) || (ancestorPaths v).contains (pyStr v)) = true
    rw [Bool.or_eq_true]
    exact Or.inr (List.elem_iff.mpr hmem)

/-- Evaluation of `claim_C9_amended_validator` on the default value of the
second path field, over an empty filesystem: the directory tree is created
and the stored value is the normalized path. -/
theorem claim_C9_witness :
    (Settings.ensure_directory_exists (fun _ => false) "./data/uploads").1
      = "data/uploads" ∧
    (Settings.ensure_directory_exists (fun _ => false) "./data/uploads").2
      "data/uploads" = true ∧
    (Settings.ensure_directory_exists (fun _ => false) "./data/uploads").2
      "data" = true := by
  have h := claim_C9_amended_validator (fun _ => false) "./data/uploads"
  exact ⟨by rw [h.1]; rfl, h.2.2.2 (by decide), h.2.1 "data" (by decide)⟩
